import Mathlib

/-!
# Shallow embedding of the task-scheduler module (task.h / task.c)

The C module keeps a singleton scheduler state:
  - `tick_count : uint32_t`
  - `task_flags : uint8_t[TASK_COUNT]` (values 0/1, modelled as `Bool`)
  - `task_overflow_count : uint8_t[TASK_COUNT]` (modelled as `Nat` with `% 256`)
  - `task_handler_cb : task_handler_cb_t[TASK_COUNT]` (function pointers; modelled
    as `Option Nat`, a pointer value or NULL)

`TASK_COUNT = 8`; slots are `TASK_1HZ = 0 .. TASK_200HZ = 7`.
Callbacks are external effects: `task_handler` returns, besides the new state,
the trace of `(slot, callback)` invocations it performs, in order.
-/

/-- `TASK_COUNT` from task.h: eight frequency slots. -/
def TASK_COUNT : Nat := 8

/-- The constant configuration table `task_ticks` from task.c:
tick thresholds for each frequency slot (1ms tick). -/
def task_ticks : Fin 8 → Nat
  | 0 => 1000  -- TICK_1HZ
  | 1 => 500   -- TICK_2HZ
  | 2 => 200   -- TICK_5HZ
  | 3 => 100   -- TICK_10HZ
  | 4 => 50    -- TICK_20HZ
  | 5 => 20    -- TICK_50HZ
  | 6 => 10    -- TICK_100HZ
  | 7 => 5     -- TICK_200HZ

/-- 2^32, the modulus of the C `uint32_t` tick counter. -/
def UINT32_MOD : Nat := 4294967296

/-- The scheduler state (`task_scheduler_t` / the module-level globals of task.c). -/
structure Scheduler where
  tick_count : Nat
  flags : Fin 8 → Bool
  overflow_count : Fin 8 → Nat
  handler_cb : Fin 8 → Option Nat

/-- The initial (zeroed) scheduler state: static initialization `{0}` in C. -/
def initState : Scheduler :=
  { tick_count := 0
    flags := fun _ => false
    overflow_count := fun _ => 0
    handler_cb := fun _ => none }

/-- The per-slot guard of the loop body in `task_tick`:
`tick_count % task_ticks[i] == 0`. -/
def raiseCond (tc : Nat) (i : Fin 8) : Bool :=
  tc % task_ticks i == 0

/-- `task_tick` from task.c: increment the tick count (uint32 arithmetic), then
for every slot whose threshold divides the counter, record an overflow if the
flag was still set and raise the flag; finally reset the counter at 1 second. -/
def task_tick (s : Scheduler) : Scheduler :=
  let tc := (s.tick_count + 1) % UINT32_MOD
  { tick_count := if 1000 ≤ tc then 0 else tc
    flags := fun i => if raiseCond tc i then true else s.flags i
    overflow_count := fun i =>
      if raiseCond tc i then
        if s.flags i then (s.overflow_count i + 1) % 256 else s.overflow_count i
      else s.overflow_count i
    handler_cb := s.handler_cb }

/-- Whether the next `task_tick` from state `s` raises slot `i`
(the guard it will evaluate for slot `i`). -/
def tickRaises (s : Scheduler) (i : Fin 8) : Bool :=
  raiseCond ((s.tick_count + 1) % UINT32_MOD) i

/-- `n` consecutive `task_tick` calls. -/
def tickN : Nat → Scheduler → Scheduler
  | 0, s => s
  | n + 1, s => task_tick (tickN n s)

/-- Number of times slot `i` is raised during `n` consecutive `task_tick`
calls starting from `s`. -/
def raiseCount (s : Scheduler) (i : Fin 8) : Nat → Nat
  | 0 => 0
  | n + 1 => (if tickRaises s i then 1 else 0) + raiseCount (task_tick s) i n

/-- `task_handler` from task.c: scan slots in ascending index order; for each
set flag, clear it, then invoke the registered callback if non-NULL. Returns
the new state and the ordered invocation trace (slot, callback pointer). -/
def task_handler (s : Scheduler) : Scheduler × List (Fin 8 × Nat) :=
  ({ s with flags := fun i => if s.flags i then false else s.flags i },
   (List.finRange 8).filterMap fun i =>
     if s.flags i then (s.handler_cb i).map fun c => (i, c) else none)

/-- `task_register_handler` from task.c: store the handler if the slot index
is in range, otherwise do nothing. -/
def task_register_handler (s : Scheduler) (task_type : Nat) (handler : Option Nat) : Scheduler :=
  if h : task_type < TASK_COUNT then
    { s with handler_cb := Function.update s.handler_cb ⟨task_type, h⟩ handler }
  else s

set_option maxRecDepth 10000

/-! ## Basic facts about the configuration table and single steps -/

lemma task_ticks_pos_dvd : ∀ i : Fin 8, 0 < task_ticks i ∧ task_ticks i ∣ 1000 := by decide

lemma tickN_succ (n : Nat) (s : Scheduler) : tickN (n + 1) s = task_tick (tickN n s) := rfl

lemma task_tick_handler_cb (s : Scheduler) (i : Fin 8) :
    (task_tick s).handler_cb i = s.handler_cb i := rfl

lemma task_tick_flags_pos (s : Scheduler) (i : Fin 8) (h : tickRaises s i = true) :
    (task_tick s).flags i = true := by
  show (if raiseCond ((s.tick_count + 1) % UINT32_MOD) i then true else s.flags i) = true
  rw [show raiseCond ((s.tick_count + 1) % UINT32_MOD) i = tickRaises s i from rfl, h]
  simp

lemma task_tick_flags_neg (s : Scheduler) (i : Fin 8) (h : tickRaises s i = false) :
    (task_tick s).flags i = s.flags i := by
  show (if raiseCond ((s.tick_count + 1) % UINT32_MOD) i then true else s.flags i) = s.flags i
  rw [show raiseCond ((s.tick_count + 1) % UINT32_MOD) i = tickRaises s i from rfl, h]
  simp

lemma task_tick_overflow_pos_set (s : Scheduler) (i : Fin 8)
    (h1 : tickRaises s i = true) (h2 : s.flags i = true) :
    (task_tick s).overflow_count i = (s.overflow_count i + 1) % 256 := by
  show (if raiseCond ((s.tick_count + 1) % UINT32_MOD) i then
      (if s.flags i then (s.overflow_count i + 1) % 256 else s.overflow_count i)
    else s.overflow_count i) = _
  rw [show raiseCond ((s.tick_count + 1) % UINT32_MOD) i = tickRaises s i from rfl, h1, h2]
  simp

lemma task_tick_overflow_pos_clear (s : Scheduler) (i : Fin 8)
    (h1 : tickRaises s i = true) (h2 : s.flags i = false) :
    (task_tick s).overflow_count i = s.overflow_count i := by
  show (if raiseCond ((s.tick_count + 1) % UINT32_MOD) i then
      (if s.flags i then (s.overflow_count i + 1) % 256 else s.overflow_count i)
    else s.overflow_count i) = _
  rw [show raiseCond ((s.tick_count + 1) % UINT32_MOD) i = tickRaises s i from rfl, h1, h2]
  simp

lemma task_tick_overflow_neg (s : Scheduler) (i : Fin 8) (h : tickRaises s i = false) :
    (task_tick s).overflow_count i = s.overflow_count i := by
  show (if raiseCond ((s.tick_count + 1) % UINT32_MOD) i then
      (if s.flags i then (s.overflow_count i + 1) % 256 else s.overflow_count i)
    else s.overflow_count i) = _
  rw [show raiseCond ((s.tick_count + 1) % UINT32_MOD) i = tickRaises s i from rfl, h]
  simp

/-! ## Closed forms for the tick-only trajectory from the initial state -/

lemma tick_count_tickN (n : Nat) : (tickN n initState).tick_count = n % 1000 := by
  induction n with
  | zero => rfl
  | succ n ih =>
    show (task_tick (tickN n initState)).tick_count = (n + 1) % 1000
    simp only [task_tick, ih, UINT32_MOD]
    have h2 : n % 1000 < 1000 := Nat.mod_lt n (by norm_num)
    rw [Nat.mod_eq_of_lt (show n % 1000 + 1 < 4294967296 by omega)]
    split <;> omega

lemma tickRaises_tickN (i : Fin 8) (n : Nat) :
    tickRaises (tickN n initState) i = true ↔ task_ticks i ∣ (n + 1) := by
  obtain ⟨hp, hd⟩ := task_ticks_pos_dvd i
  have h1 : ((tickN n initState).tick_count + 1) % UINT32_MOD = n % 1000 + 1 := by
    rw [tick_count_tickN]
    apply Nat.mod_eq_of_lt
    have h2 : n % 1000 < 1000 := Nat.mod_lt n (by norm_num)
    simp only [UINT32_MOD]
    omega
  have h2 : (n % 1000 + 1) % task_ticks i = (n + 1) % task_ticks i := by
    conv_lhs => rw [Nat.add_mod]
    rw [Nat.mod_mod_of_dvd n hd, ← Nat.add_mod]
  simp only [tickRaises, raiseCond, h1, h2, beq_iff_eq]
  exact Nat.dvd_iff_mod_eq_zero.symm


lemma flags_overflow_tickN (i : Fin 8) (n : Nat) :
    (tickN n initState).flags i = decide (task_ticks i ≤ n) ∧
    (tickN n initState).overflow_count i = (n / task_ticks i - 1) % 256 := by
  obtain ⟨hp, hd⟩ := task_ticks_pos_dvd i
  induction n with
  | zero =>
    constructor
    · show initState.flags i = decide (task_ticks i ≤ 0)
      simp [initState]
      omega
    · show initState.overflow_count i = (0 / task_ticks i - 1) % 256
      simp [initState]
  | succ n ih =>
    obtain ⟨ihf, iho⟩ := ih
    by_cases hdvd : task_ticks i ∣ (n + 1)
    · have hr : tickRaises (tickN n initState) i = true := (tickRaises_tickN i n).2 hdvd
      have hle : task_ticks i ≤ n + 1 := Nat.le_of_dvd (by omega) hdvd
      have hdiv : (n + 1) / task_ticks i = n / task_ticks i + 1 := Nat.succ_div_of_dvd hdvd
      constructor
      · rw [tickN_succ, task_tick_flags_pos _ _ hr]
        simp [hle]
      · by_cases h2 : task_ticks i ≤ n
        · have hfl : (tickN n initState).flags i = true := by
            rw [ihf]; simp [h2]
          rw [tickN_succ, task_tick_overflow_pos_set _ _ hr hfl, iho, Nat.mod_add_mod, hdiv]
          congr 1
          have h3 : 1 ≤ n / task_ticks i := (Nat.one_le_div_iff hp).2 h2
          omega
        · have hfl : (tickN n initState).flags i = false := by
            rw [ihf]; simp [h2]
          rw [tickN_succ, task_tick_overflow_pos_clear _ _ hr hfl, iho, hdiv]
          have h3 : n / task_ticks i = 0 := Nat.div_eq_of_lt (by omega)
          rw [h3]
    · have hr : tickRaises (tickN n initState) i = false := by
        cases h : tickRaises (tickN n initState) i
        · rfl
        · exact absurd ((tickRaises_tickN i n).1 h) hdvd
      have hdiv : (n + 1) / task_ticks i = n / task_ticks i := Nat.succ_div_of_not_dvd hdvd
      have hiff : (task_ticks i ≤ n) ↔ (task_ticks i ≤ n + 1) := by
        constructor
        · omega
        · intro h
          rcases Nat.lt_or_ge n (task_ticks i) with h2 | h2
          · exfalso
            have h3 : task_ticks i = n + 1 := by omega
            exact hdvd (h3 ▸ Nat.dvd_refl (task_ticks i))
          · exact h2
      constructor
      · rw [tickN_succ, task_tick_flags_neg _ _ hr, ihf]
        exact decide_eq_decide.2 hiff
      · rw [tickN_succ, task_tick_overflow_neg _ _ hr, iho, hdiv]

lemma raiseCount_tickN (i : Fin 8) :
    ∀ (n m : Nat), raiseCount (tickN m initState) i n =
      (m + n) / task_ticks i - m / task_ticks i := by
  intro n
  induction n with
  | zero =>
    intro m
    show 0 = (m + 0) / task_ticks i - m / task_ticks i
    simp
  | succ n ih =>
    intro m
    show (if tickRaises (tickN m initState) i then 1 else 0) +
        raiseCount (task_tick (tickN m initState)) i n = _
    rw [show task_tick (tickN m initState) = tickN (m + 1) initState from rfl, ih (m + 1)]
    have he : m + 1 + n = m + (n + 1) := by omega
    rw [he]
    have hmono : (m + 1) / task_ticks i ≤ (m + (n + 1)) / task_ticks i :=
      Nat.div_le_div_right (by omega)
    by_cases hdvd : task_ticks i ∣ (m + 1)
    · have hr : tickRaises (tickN m initState) i = true := (tickRaises_tickN i m).2 hdvd
      have hdiv : (m + 1) / task_ticks i = m / task_ticks i + 1 := Nat.succ_div_of_dvd hdvd
      simp only [hr, if_true]
      omega
    · have hr : tickRaises (tickN m initState) i = false := by
        cases h : tickRaises (tickN m initState) i
        · rfl
        · exact absurd ((tickRaises_tickN i m).1 h) hdvd
      have hdiv : (m + 1) / task_ticks i = m / task_ticks i := Nat.succ_div_of_not_dvd hdvd
      simp only [hr, Bool.false_eq_true, if_false]
      omega

/-! ## Arbitrary interleavings of the three public operations -/

/-- One call to a public entry point of the module. -/
inductive SchedOp where
  | tick : SchedOp
  | handler : SchedOp
  | register : Nat → Option Nat → SchedOp

/-- The state effect of one public call (the invocation trace of
`task_handler` is discarded here; it does not feed back into the state). -/
def applyOp (s : Scheduler) : SchedOp → Scheduler
  | SchedOp.tick => task_tick s
  | SchedOp.handler => (task_handler s).1
  | SchedOp.register t cb => task_register_handler s t cb

/-- Run a sequence of public calls left to right. -/
def runOps (s : Scheduler) : List SchedOp → Scheduler
  | [] => s
  | op :: ops => runOps (applyOp s op) ops

/-- The condition under which the next `task_tick` from `s` increments
slot `i`'s overflow counter: the slot is due and its flag is still set. -/
def isOverflowEvent (s : Scheduler) (i : Fin 8) : Bool :=
  tickRaises s i && s.flags i

/-- Number of overflow events for slot `i` along a run of public calls. -/
def countOverflows (s : Scheduler) (i : Fin 8) : List SchedOp → Nat
  | [] => 0
  | SchedOp.tick :: ops =>
      (if isOverflowEvent s i then 1 else 0) + countOverflows (task_tick s) i ops
  | SchedOp.handler :: ops => countOverflows ((task_handler s).1) i ops
  | SchedOp.register t cb :: ops => countOverflows (task_register_handler s t cb) i ops

lemma task_handler_state_flags (s : Scheduler) (i : Fin 8) :
    (task_handler s).1.flags i = if s.flags i then false else s.flags i := rfl

lemma task_handler_state_overflow (s : Scheduler) (i : Fin 8) :
    (task_handler s).1.overflow_count i = s.overflow_count i := rfl

lemma task_handler_state_tick_count (s : Scheduler) :
    (task_handler s).1.tick_count = s.tick_count := rfl

lemma task_handler_flags_false (s : Scheduler) (i : Fin 8) :
    (task_handler s).1.flags i = false := by
  rw [task_handler_state_flags]
  cases h : s.flags i <;> simp

lemma task_register_handler_flags (s : Scheduler) (t : Nat) (cb : Option Nat) :
    (task_register_handler s t cb).flags = s.flags := by
  unfold task_register_handler
  split <;> rfl

lemma task_register_handler_overflow (s : Scheduler) (t : Nat) (cb : Option Nat) :
    (task_register_handler s t cb).overflow_count = s.overflow_count := by
  unfold task_register_handler
  split <;> rfl

lemma task_register_handler_tick_count (s : Scheduler) (t : Nat) (cb : Option Nat) :
    (task_register_handler s t cb).tick_count = s.tick_count := by
  unfold task_register_handler
  split <;> rfl

lemma task_tick_tick_count_le (s : Scheduler) (h : s.tick_count ≤ 999) :
    (task_tick s).tick_count ≤ 999 := by
  show (if 1000 ≤ (s.tick_count + 1) % UINT32_MOD then 0
    else (s.tick_count + 1) % UINT32_MOD) ≤ 999
  simp only [UINT32_MOD]
  rw [Nat.mod_eq_of_lt (by omega)]
  split <;> omega

lemma applyOp_tick_count_le (s : Scheduler) (op : SchedOp) (h : s.tick_count ≤ 999) :
    (applyOp s op).tick_count ≤ 999 := by
  cases op with
  | tick => exact task_tick_tick_count_le s h
  | handler => exact h
  | register t cb =>
    show (task_register_handler s t cb).tick_count ≤ 999
    rw [task_register_handler_tick_count]
    exact h

lemma runOps_tick_count_le (ops : List SchedOp) :
    ∀ s : Scheduler, s.tick_count ≤ 999 → (runOps s ops).tick_count ≤ 999 := by
  induction ops with
  | nil => exact fun s h => h
  | cons op ops ih => exact fun s h => ih (applyOp s op) (applyOp_tick_count_le s op h)

lemma task_tick_overflow_event (s : Scheduler) (i : Fin 8) :
    (task_tick s).overflow_count i =
      if isOverflowEvent s i then (s.overflow_count i + 1) % 256
      else s.overflow_count i := by
  by_cases h1 : tickRaises s i = true
  · by_cases h2 : s.flags i = true
    · rw [task_tick_overflow_pos_set s i h1 h2]
      simp [isOverflowEvent, h1, h2]
    · have h2f : s.flags i = false := by
        cases h : s.flags i
        · rfl
        · exact absurd h h2
      rw [task_tick_overflow_pos_clear s i h1 h2f]
      simp [isOverflowEvent, h2f]
  · have h1f : tickRaises s i = false := by
      cases h : tickRaises s i
      · rfl
      · exact absurd h h1
    rw [task_tick_overflow_neg s i h1f]
    simp [isOverflowEvent, h1f]

lemma runOps_overflow_mod (i : Fin 8) :
    ∀ (ops : List SchedOp) (s : Scheduler), s.overflow_count i < 256 →
      (runOps s ops).overflow_count i =
        (s.overflow_count i + countOverflows s i ops) % 256 := by
  intro ops
  induction ops with
  | nil =>
    intro s h
    show s.overflow_count i = (s.overflow_count i + 0) % 256
    rw [Nat.add_zero, Nat.mod_eq_of_lt h]
  | cons op ops ih =>
    intro s h
    cases op with
    | tick =>
      show (runOps (task_tick s) ops).overflow_count i =
        (s.overflow_count i +
          ((if isOverflowEvent s i then 1 else 0) + countOverflows (task_tick s) i ops)) % 256
      have hlt : (task_tick s).overflow_count i < 256 := by
        rw [task_tick_overflow_event]
        split
        · exact Nat.mod_lt _ (by norm_num)
        · exact h
      rw [ih (task_tick s) hlt, task_tick_overflow_event]
      by_cases hev : isOverflowEvent s i = true
      · simp only [hev, if_true]
        rw [Nat.mod_add_mod]
        congr 1
        omega
      · have hevf : isOverflowEvent s i = false := by
          cases hx : isOverflowEvent s i
          · rfl
          · exact absurd hx hev
        simp only [hevf, Bool.false_eq_true, if_false]
        congr 1
        omega
    | handler =>
      show (runOps ((task_handler s).1) ops).overflow_count i =
        (s.overflow_count i + countOverflows ((task_handler s).1) i ops) % 256
      have hov : (task_handler s).1.overflow_count i = s.overflow_count i := rfl
      rw [ih ((task_handler s).1) (by rw [hov]; exact h), hov]
    | register t cb =>
      show (runOps (task_register_handler s t cb) ops).overflow_count i =
        (s.overflow_count i + countOverflows (task_register_handler s t cb) i ops) % 256
      have hov : (task_register_handler s t cb).overflow_count i = s.overflow_count i := by
        rw [task_register_handler_overflow]
      rw [ih (task_register_handler s t cb) (by rw [hov]; exact h), hov]

/-! ## The dispatch loop's invocation trace -/

lemma mem_handler_trace (s : Scheduler) (j : Fin 8) (c : Nat) :
    (j, c) ∈ (task_handler s).2 ↔ s.flags j = true ∧ s.handler_cb j = some c := by
  show (j, c) ∈ (List.finRange 8).filterMap
      (fun i => if s.flags i then (s.handler_cb i).map (fun c => (i, c)) else none) ↔ _
  rw [List.mem_filterMap]
  constructor
  · rintro ⟨a, -, ha⟩
    by_cases hf : s.flags a = true
    · rw [if_pos hf] at ha
      rw [Option.map_eq_some'] at ha
      obtain ⟨c2, hc2, he⟩ := ha
      have haj : a = j := congrArg Prod.fst he
      have hcc : c2 = c := congrArg Prod.snd he
      subst haj
      subst hcc
      exact ⟨hf, hc2⟩
    · rw [if_neg hf] at ha
      exact absurd ha (Option.some_ne_none _).symm
  · rintro ⟨hf, hc⟩
    refine ⟨j, List.mem_finRange j, ?_⟩
    rw [if_pos hf, hc]
    rfl

lemma handler_trace_pairwise (s : Scheduler) :
    List.Pairwise (fun a b : Fin 8 × Nat => a.1 < b.1) (task_handler s).2 := by
  show List.Pairwise _ ((List.finRange 8).filterMap
    (fun i => if s.flags i then (s.handler_cb i).map (fun c => (i, c)) else none))
  have hfst : ∀ (i : Fin 8) (b : Fin 8 × Nat),
      (if s.flags i then (s.handler_cb i).map (fun c => (i, c)) else none) = some b →
      b.1 = i := by
    intro i b hb
    by_cases hf : s.flags i = true
    · rw [if_pos hf, Option.map_eq_some'] at hb
      obtain ⟨c2, -, he⟩ := hb
      rw [← he]
    · rw [if_neg hf] at hb
      exact absurd hb (Option.some_ne_none _).symm
  refine List.Pairwise.filterMap _ ?_ (List.pairwise_lt_finRange 8)
  intro a a' hlt b hb b' hb'
  rw [hfst a b hb, hfst a' b' hb']
  exact hlt

lemma task_handler_no_flags (s : Scheduler) (h : ∀ i, s.flags i = false) :
    task_handler s = (s, []) := by
  unfold task_handler
  refine Prod.ext ?_ ?_
  · show ({ s with flags := fun i => if s.flags i then false else s.flags i } : Scheduler) = s
    have hfl : (fun i => if s.flags i then false else s.flags i) = s.flags := by
      funext i
      rw [h i]
      simp
    rw [hfl]
  · show (List.finRange 8).filterMap
      (fun i => if s.flags i then (s.handler_cb i).map (fun c => (i, c)) else none) = []
    rw [List.filterMap_eq_nil_iff]
    intro a _
    rw [h a]
    simp

lemma tickN_no_raise (i : Fin 8) :
    ∀ (n : Nat) (s : Scheduler), s.flags i = false →
      (∀ m : Nat, m < n → tickRaises (tickN m s) i = false) →
      (tickN n s).flags i = false ∧ (tickN n s).overflow_count i = s.overflow_count i := by
  intro n
  induction n with
  | zero => exact fun s h _ => ⟨h, rfl⟩
  | succ n ih =>
    intro s hf hnr
    obtain ⟨h1, h2⟩ := ih s hf (fun m hm => hnr m (by omega))
    have hr : tickRaises (tickN n s) i = false := hnr n (by omega)
    refine ⟨?_, ?_⟩
    · rw [tickN_succ, task_tick_flags_neg _ _ hr, h1]
    · rw [tickN_succ, task_tick_overflow_neg _ _ hr, h2]

/-! ## The claims -/

/-- C1: from the initial state, 1000 `task_tick` calls with no `task_handler`
leave the 1Hz slot (slot 0) pending, raised exactly once with overflow count 0,
and the 200Hz slot (slot 7, period 5) raised 200 times with overflow count 199. -/
theorem one_second_scenario :
    (tickN 1000 initState).flags 0 = true ∧
    raiseCount initState 0 1000 = 1 ∧
    (tickN 1000 initState).overflow_count 0 = 0 ∧
    raiseCount initState 7 1000 = 200 ∧
    (tickN 1000 initState).overflow_count 7 = 199 := by
  have h0 := flags_overflow_tickN 0 1000
  have h7 := flags_overflow_tickN 7 1000
  have r0 := raiseCount_tickN 0 1000 0
  have r7 := raiseCount_tickN 7 1000 0
  have ht0 : task_ticks 0 = 1000 := by decide
  have ht7 : task_ticks 7 = 5 := by decide
  rw [ht0] at h0 r0
  rw [ht7] at h7 r7
  norm_num at h0 h7 r0 r7
  exact ⟨h0.1, r0, h0.2, r7, h7.2⟩

/-- C2: for every slot, if the tick after `n` ticks from the initial state raises
the slot, the next raise is exactly `task_ticks i` ticks later and no raise occurs
in between: consecutive pending-flag raises are exactly one period apart, the
1-second counter reset included. -/
theorem raise_gap_exact (i : Fin 8) (n : Nat)
    (h : tickRaises (tickN n initState) i = true) :
    tickRaises (tickN (n + task_ticks i) initState) i = true ∧
    ∀ m : Nat, n < m → m < n + task_ticks i →
      tickRaises (tickN m initState) i = false := by
  obtain ⟨hp, hd⟩ := task_ticks_pos_dvd i
  have hdvd := (tickRaises_tickN i n).1 h
  constructor
  · apply (tickRaises_tickN i _).2
    have he : n + task_ticks i + 1 = (n + 1) + task_ticks i := by omega
    rw [he]
    exact Nat.dvd_add hdvd dvd_rfl
  · intro m h1 h2
    cases hm : tickRaises (tickN m initState) i
    · rfl
    · exfalso
      have h3 := (tickRaises_tickN i m).1 hm
      have h4 : task_ticks i ∣ (m + 1) - (n + 1) := Nat.dvd_sub' h3 hdvd
      have h5 := Nat.le_of_dvd (by omega) h4
      omega

/-- Witness for `raise_gap_exact`: slot 7 (period 5) raises at tick 5 (n = 4);
the next raise is at tick 10 and tick 8 (m = 7) raises nothing. -/
theorem raise_gap_exact_w :
    tickRaises (tickN (4 + task_ticks 7) initState) 7 = true ∧
    tickRaises (tickN 7 initState) 7 = false :=
  ⟨(raise_gap_exact 7 4 (by decide)).1,
   (raise_gap_exact 7 4 (by decide)).2 7 (by omega) (by decide)⟩

/-- C3 counterexample: for slot 7 (period 5) and k = 257 consecutive raises with
no `task_handler` call (1285 ticks from the initial state), the 8-bit overflow
counter has wrapped and reads 0, which is not an increase of at least k - 1 = 256
over its initial value 0. -/
theorem overflow_at_least_cex :
    raiseCount initState 7 1285 = 257 ∧
    initState.overflow_count 7 = 0 ∧
    ¬ (257 - 1 ≤ (tickN 1285 initState).overflow_count 7) := by
  have h := (flags_overflow_tickN 7 1285).2
  have r := raiseCount_tickN 7 1285 0
  have ht7 : task_ticks 7 = 5 := by decide
  rw [ht7] at h r
  norm_num at h r
  refine ⟨r, rfl, ?_⟩
  rw [h]
  norm_num

/-- C3 amended: with no `task_handler` calls, after k ≥ 1 full periods of slot i
from the initial state the flag is pending and the overflow counter equals
(k - 1) % 256: the first raise adds no overflow and each of the k - 1 subsequent
raises increments the wrapping 8-bit counter, so the increase is at least k - 1
only as long as k - 1 < 256. -/
theorem overflow_missed_periods (i : Fin 8) (k : Nat) (hk : 1 ≤ k) :
    (tickN (k * task_ticks i) initState).flags i = true ∧
    (tickN (k * task_ticks i) initState).overflow_count i = (k - 1) % 256 := by
  obtain ⟨hp, hd⟩ := task_ticks_pos_dvd i
  obtain ⟨hf, ho⟩ := flags_overflow_tickN i (k * task_ticks i)
  have hdiv : k * task_ticks i / task_ticks i = k := Nat.mul_div_cancel k hp
  constructor
  · rw [hf]
    have h1 : 1 * task_ticks i ≤ k * task_ticks i := Nat.mul_le_mul_right _ hk
    have h2 : task_ticks i ≤ k * task_ticks i := by omega
    simp [h2]
  · rw [ho, hdiv]

/-- Witness for `overflow_missed_periods`: slot 7, k = 2 (10 ticks): flag pending
and overflow counter (2 - 1) % 256 = 1. -/
theorem overflow_missed_periods_w :
    (tickN (2 * task_ticks 7) initState).flags 7 = true ∧
    (tickN (2 * task_ticks 7) initState).overflow_count 7 = (2 - 1) % 256 :=
  overflow_missed_periods 7 2 (by norm_num)

/-- C4: over any sequence of public calls from the initial state the tick counter
is at most 999 after every call, and the next `task_tick` resets it to 0 exactly
when it has reached 999. -/
theorem tick_counter_bounded (ops : List SchedOp) :
    (runOps initState ops).tick_count ≤ 999 ∧
    ((task_tick (runOps initState ops)).tick_count = 0 ↔
      (runOps initState ops).tick_count = 999) := by
  have hb : (runOps initState ops).tick_count ≤ 999 :=
    runOps_tick_count_le ops initState (by decide)
  refine ⟨hb, ?_⟩
  show (if 1000 ≤ ((runOps initState ops).tick_count + 1) % UINT32_MOD then 0
    else ((runOps initState ops).tick_count + 1) % UINT32_MOD) = 0 ↔ _
  simp only [UINT32_MOD]
  rw [Nat.mod_eq_of_lt (by omega)]
  split <;> omega

/-- C5: `task_handler` visits slots in ascending index order: the invocation
trace is strictly ascending in slot index (so each ready slot's callback runs at
most once per call), the invoked pairs are exactly the pending slots with a
registered callback (so a pending slot with no callback is drained silently),
and every slot's flag is cleared. -/
theorem handler_dispatch_order (s : Scheduler) :
    List.Pairwise (fun a b : Fin 8 × Nat => a.1 < b.1) (task_handler s).2 ∧
    (∀ (j : Fin 8) (c : Nat),
      (j, c) ∈ (task_handler s).2 ↔ s.flags j = true ∧ s.handler_cb j = some c) ∧
    (∀ j : Fin 8, (task_handler s).1.flags j = false) :=
  ⟨handler_trace_pairwise s, fun j c => mem_handler_trace s j c,
    fun j => task_handler_flags_false s j⟩

/-- C6: for any slot identifier not below TASK_COUNT and any callback value,
`task_register_handler` returns with the entire scheduler state unchanged. -/
theorem register_out_of_range (s : Scheduler) (t : Nat) (cb : Option Nat)
    (h : TASK_COUNT ≤ t) :
    task_register_handler s t cb = s := by
  unfold task_register_handler
  rw [dif_neg (by omega)]

/-- Witness for `register_out_of_range` at slot identifier 8 = TASK_COUNT. -/
theorem register_out_of_range_w :
    task_register_handler initState 8 (some 0) = initState :=
  register_out_of_range initState 8 (some 0) (by decide)

/-- C7: a pending slot with no registered callback: one `task_handler` call
clears its flag, invokes nothing for it, leaves its overflow counter unchanged,
and the counter is still unchanged after the next raising tick (through any
raise-free prefix), since that raise finds the flag clear. -/
theorem unregistered_slot_drain (s : Scheduler) (i : Fin 8)
    (hcb : s.handler_cb i = none) (hfl : s.flags i = true) :
    (task_handler s).1.flags i = false ∧
    (∀ c : Nat, (i, c) ∉ (task_handler s).2) ∧
    (task_handler s).1.overflow_count i = s.overflow_count i ∧
    (∀ n : Nat, (∀ m : Nat, m < n → tickRaises (tickN m (task_handler s).1) i = false) →
      (tickN (n + 1) (task_handler s).1).overflow_count i = s.overflow_count i) := by
  have hclear : (task_handler s).1.flags i = false := task_handler_flags_false s i
  refine ⟨hclear, ?_, rfl, ?_⟩
  · intro c hc
    rw [mem_handler_trace] at hc
    rw [hcb] at hc
    exact absurd hc.2 (by simp)
  · intro n hm
    obtain ⟨g1, g2⟩ := tickN_no_raise i n ((task_handler s).1) hclear hm
    by_cases hr : tickRaises (tickN n ((task_handler s).1)) i = true
    · rw [tickN_succ, task_tick_overflow_pos_clear _ _ hr g1, g2]
      exact rfl
    · have hrf : tickRaises (tickN n ((task_handler s).1)) i = false := by
        cases hx : tickRaises (tickN n ((task_handler s).1)) i
        · rfl
        · exact absurd hx hr
      rw [tickN_succ, task_tick_overflow_neg _ _ hrf, g2]
      exact rfl

/-- Witness for `unregistered_slot_drain`: after 5 ticks slot 7 is pending with
no callback registered; `task_handler` clears it, invokes nothing, and the
overflow counter survives the next tick unchanged. -/
theorem unregistered_slot_drain_w :
    (task_handler (tickN 5 initState)).1.flags 7 = false ∧
    (7, 3) ∉ (task_handler (tickN 5 initState)).2 ∧
    (task_handler (tickN 5 initState)).1.overflow_count 7 =
      (tickN 5 initState).overflow_count 7 ∧
    (tickN 1 (task_handler (tickN 5 initState)).1).overflow_count 7 =
      (tickN 5 initState).overflow_count 7 := by
  have h := unregistered_slot_drain (tickN 5 initState) 7 (by decide) (by decide)
  exact ⟨h.1, h.2.1 3, h.2.2.1, h.2.2.2 0 (fun m hm => absurd hm (Nat.not_lt_zero m))⟩

/-- C8: over any sequence of public calls from the initial state, each slot's
8-bit overflow counter equals the number of overflow events for that slot
modulo 256: it wraps rather than saturates, reading 0 again after exactly 256
overflow events. -/
theorem overflow_count_mod_256 (ops : List SchedOp) (i : Fin 8) :
    (runOps initState ops).overflow_count i = countOverflows initState i ops % 256 := by
  have h0 : initState.overflow_count i = 0 := rfl
  have h := runOps_overflow_mod i ops initState (by rw [h0]; norm_num)
  rw [h0] at h
  rw [h]
  norm_num

/-- C9: after one `task_handler` call every flag is clear, and a second call with
no intervening tick returns the same state and an empty invocation trace:
`task_handler` is idempotent on the scheduler state. -/
theorem handler_idempotent (s : Scheduler) :
    (∀ i : Fin 8, (task_handler s).1.flags i = false) ∧
    task_handler ((task_handler s).1) = ((task_handler s).1, []) :=
  ⟨fun i => task_handler_flags_false s i,
    task_handler_no_flags ((task_handler s).1) (fun i => task_handler_flags_false s i)⟩

/-- C10: registering NULL (none) for an in-range slot overwrites any earlier
registration (a later registration always overwrites), leaves the slot with no
callback, and a subsequent `task_handler` call on the pending slot clears the
flag and invokes nothing for it, exactly as for a never-registered slot. -/
theorem register_null_unbinds (s : Scheduler) (i : Fin 8) (cb cb2 : Option Nat)
    (hfl : s.flags i = true) :
    task_register_handler (task_register_handler s i.val cb) i.val cb2 =
      task_register_handler s i.val cb2 ∧
    (task_register_handler s i.val none).handler_cb i = none ∧
    (task_handler (task_register_handler s i.val none)).1.flags i = false ∧
    (∀ c : Nat, (i, c) ∉ (task_handler (task_register_handler s i.val none)).2) := by
  have hlt : i.val < TASK_COUNT := i.isLt
  have hcb : (task_register_handler s i.val none).handler_cb i = none := by
    unfold task_register_handler
    rw [dif_pos hlt]
    show Function.update s.handler_cb ⟨i.val, hlt⟩ none i = none
    have hi : (⟨i.val, hlt⟩ : Fin 8) = i := rfl
    rw [hi, Function.update_same]
  refine ⟨?_, hcb, task_handler_flags_false _ i, ?_⟩
  · unfold task_register_handler
    rw [dif_pos hlt, dif_pos hlt, dif_pos hlt]
    show ({ tick_count := s.tick_count
            flags := s.flags
            overflow_count := s.overflow_count
            handler_cb := Function.update (Function.update s.handler_cb ⟨i.val, hlt⟩ cb)
              ⟨i.val, hlt⟩ cb2 } : Scheduler) = _
    rw [Function.update_idem]
  · intro c hc
    rw [mem_handler_trace] at hc
    rw [hcb] at hc
    exact absurd hc.2 (by simp)

/-- Witness for `register_null_unbinds`: register callback 1 on slot 7, tick to
pending, overwrite registrations, register NULL, dispatch: flag cleared, no
invocation of slot 7. -/
theorem register_null_unbinds_w :
    (task_register_handler (task_register_handler
        (tickN 5 (task_register_handler initState 7 (some 1))) 7 (some 2)) 7 (some 3) =
      task_register_handler (tickN 5 (task_register_handler initState 7 (some 1))) 7 (some 3)) ∧
    ((task_register_handler (tickN 5 (task_register_handler initState 7 (some 1))) 7
        none).handler_cb 7 = none) ∧
    ((task_handler (task_register_handler
        (tickN 5 (task_register_handler initState 7 (some 1))) 7 none)).1.flags 7 = false) ∧
    ((7, 1) ∉ (task_handler (task_register_handler
        (tickN 5 (task_register_handler initState 7 (some 1))) 7 none)).2) := by
  have h := register_null_unbinds (tickN 5 (task_register_handler initState 7 (some 1)))
    7 (some 2) (some 3) (by decide)
  exact ⟨h.1, h.2.1, h.2.2.1, h.2.2.2 1⟩
